import Mathlib

/-!
A verification model of the timeline-delivery core of the
`x-timeline-architecture-demo` repository (Go + PostgreSQL + Redis).

The shallow embedding below translates, from the Go source:
  * the data model (`internal/models`): tweets, users, follow edges;
  * the relational store (`internal/repository`): the `users` / `tweets` /
    `follows` tables together with the SQL queries the strategies issue,
    including the `update_follow_counts` trigger of `migrations/001_init.sql`;
  * the Redis timeline cache (`internal/cache/timeline_cache.go`): sorted
    sets (`timeline:{uid}`, `celebrity:tweets:{uid}`) modelled as lists of
    `(member, score)` pairs kept ascending by `(score, member)`, exactly the
    order Redis uses for `ZADD` / `ZREVRANGE` / `ZREMRANGEBYRANK` (member
    ties in Redis order by the decimal string of the id; on ids of equal
    digit length, as in every concrete state used here, that coincides with
    numeric order);
  * the three strategies (`internal/timeline/{fanout_write,fanout_read,hybrid}.go`).

Conventions of the embedding:
  * `time.Time` values are modelled by their `UnixNano` integer, and
    `t1.After(t2)` by `t2 < t1`; Redis scores (`float64(UnixNano)`) are kept
    exact as integers (the float rounding is monotone and no verified
    property depends on it).
  * Fallible store/cache sub-calls take fault-injection flags (`Fx`); a
    failed call leaves the corresponding state unchanged, and I/O details
    (contexts, TTLs, pipelining, connection pools) are not modelled.
  * The `Username` display field that SQL joins attach to returned tweets is
    omitted: it is filled from the authoritative `users` row, never stored
    with the tweet, and no verified property mentions it.
  * Go's `sort.Slice(tweets, less)` with `less i j := created_at i > created_at j`
    is modelled by the stable `List.insertionSort` under the total relation
    `byTimeDesc`: any output of such a sort is pairwise non-increasing in
    `created_at`, which is the property the comparator guarantees.
-/

namespace FanOut

/-- A row of the `tweets` table (`models.Tweet`): id, author, content and
`created_at` in nanoseconds. -/
structure Tweet where
  id : Int
  userId : Int
  content : String
  createdAt : Int
deriving Repr, DecidableEq

/-- A row of the `users` table (`models.User`) with its denormalised
follower / following counters. -/
structure User where
  id : Int
  username : String
  followerCount : Int
  followingCount : Int
deriving Repr, DecidableEq

/-- `models.User.IsCelebrity`: `u.FollowerCount >= threshold`. -/
def User.IsCelebrity (u : User) (threshold : Int) : Bool :=
  decide (threshold ≤ u.followerCount)

/-- The relational store: the three tables plus the `BIGSERIAL` counter that
assigns tweet ids. -/
structure RelStore where
  users : List User
  tweets : List Tweet
  follows : List (Int × Int)
  nextTweetId : Int
deriving Repr, DecidableEq

/-- `tweets[i].CreatedAt` non-increasing comparison used by
`sortTweetsByTime` (`internal/timeline/common.go`). -/
def byTimeDesc : Tweet → Tweet → Prop := fun a b => b.createdAt ≤ a.createdAt

instance : DecidableRel byTimeDesc := fun a b => by
  unfold byTimeDesc; infer_instance

instance : IsTotal Tweet byTimeDesc :=
  ⟨fun a b => le_total b.createdAt a.createdAt⟩

instance : IsTrans Tweet byTimeDesc :=
  ⟨fun _ _ _ h1 h2 => le_trans h2 h1⟩

/-- `sortTweetsByTime` (`common.go`): sort most-recent first.  The Go code
uses `sort.Slice` with the strict comparator on `CreatedAt`; the stable
insertion sort below is one refinement of that unspecified-on-ties sort. -/
def sortTweetsByTime (l : List Tweet) : List Tweet :=
  l.insertionSort byTimeDesc

/-- Go slice `l[offset:]` as guarded in the strategies:
`if offset > 0 { if offset >= len(l) { l = [] } else { l = l[offset:] } }`. -/
def applyOffset (l : List Tweet) (offset : Int) : List Tweet :=
  if 0 < offset then (if (l.length : Int) ≤ offset then [] else l.drop offset.toNat) else l

/-- Go slice truncation `if len(l) > limit { l = l[:limit] }`. -/
def applyLimit (l : List Tweet) (limit : Int) : List Tweet :=
  if limit < (l.length : Int) then l.take limit.toNat else l

/-- `mergeTweets` (`common.go`): concatenate, sort by time, keep top `limit`. -/
def mergeTweets (a b : List Tweet) (limit : Int) : List Tweet :=
  applyLimit (sortTweetsByTime (a ++ b)) limit

/-- Recursion of `deduplicateTweets` with the `seen` map carried explicitly. -/
def dedupSeen : List Int → List Tweet → List Tweet
  | _, [] => []
  | seen, t :: rest =>
    if t.id ∈ seen then dedupSeen seen rest
    else t :: dedupSeen (t.id :: seen) rest

/-- `deduplicateTweets` (`common.go`): keep the first occurrence of each id. -/
def deduplicateTweets (ts : List Tweet) : List Tweet :=
  dedupSeen [] ts

/-! ## The relational queries (`internal/repository`) -/

/-- `UserRepository.GetByID`: `SELECT ... FROM users WHERE id = $1`. -/
def UserRepository.GetByID (s : RelStore) (uid : Int) : Option User :=
  s.users.find? (fun u => decide (u.id = uid))

/-- `TweetRepository.Create`: `INSERT INTO tweets (user_id, content) ...
RETURNING ...`.  Fails (foreign key) when the author row is missing; the
database assigns the serial id and `created_at = now`. -/
def TweetRepository.Create (s : RelStore) (uid : Int) (content : String) (now : Int) :
    Option (Tweet × RelStore) :=
  if s.users.any (fun u => decide (u.id = uid)) then
    let t : Tweet := { id := s.nextTweetId, userId := uid, content := content, createdAt := now }
    some (t, { s with tweets := s.tweets ++ [t], nextTweetId := s.nextTweetId + 1 })
  else none

/-- `TweetRepository.GetByIDs`: rows with `id = ANY($1)`, `ORDER BY
created_at DESC`. -/
def TweetRepository.GetByIDs (s : RelStore) (ids : List Int) : List Tweet :=
  sortTweetsByTime (s.tweets.filter (fun t => decide (t.id ∈ ids)))

/-- `TweetRepository.GetByUserIDs`: rows with `user_id = ANY($1)`,
`ORDER BY created_at DESC LIMIT $2`. -/
def TweetRepository.GetByUserIDs (s : RelStore) (uids : List Int) (limit : Int) : List Tweet :=
  (sortTweetsByTime (s.tweets.filter (fun t => decide (t.userId ∈ uids)))).take limit.toNat

/-- `TweetRepository.GetRecentByUserIDs`: the lateral join — for each row of
`unnest($1)` the author's newest `perUserLimit` tweets, then globally
`ORDER BY created_at DESC LIMIT totalLimit`. -/
def TweetRepository.GetRecentByUserIDs (s : RelStore) (uids : List Int)
    (perUserLimit totalLimit : Int) : List Tweet :=
  let perUser := fun u =>
    (sortTweetsByTime (s.tweets.filter (fun t => decide (t.userId = u)))).take perUserLimit.toNat
  (sortTweetsByTime (uids.map perUser).flatten).take totalLimit.toNat

/-- `FollowRepository.GetFollowers`: `SELECT follower_id FROM follows WHERE
followee_id = $1`. -/
def FollowRepository.GetFollowers (s : RelStore) (uid : Int) : List Int :=
  (s.follows.filter (fun e => decide (e.2 = uid))).map (fun e => e.1)

/-- `FollowRepository.GetFollowing`: `SELECT followee_id FROM follows WHERE
follower_id = $1`. -/
def FollowRepository.GetFollowing (s : RelStore) (uid : Int) : List Int :=
  (s.follows.filter (fun e => decide (e.1 = uid))).map (fun e => e.2)

/-- `FollowRepository.GetFollowingCelebrities`: users joined through a
follow edge from `uid` whose `follower_count >= threshold`. -/
def FollowRepository.GetFollowingCelebrities (s : RelStore) (uid : Int) (threshold : Int) :
    List User :=
  s.users.filter (fun u => decide ((uid, u.id) ∈ s.follows) && decide (threshold ≤ u.followerCount))

/-- Add 1 to `follower_count` of user `b` (`UPDATE users SET follower_count
= follower_count + 1 WHERE id = ...` of the trigger). -/
def bumpFollowerCount (users : List User) (b : Int) : List User :=
  users.map (fun u => if u.id = b then { u with followerCount := u.followerCount + 1 } else u)

/-- Add 1 to `following_count` of user `a` (second `UPDATE` of the trigger). -/
def bumpFollowingCount (users : List User) (a : Int) : List User :=
  users.map (fun u => if u.id = a then { u with followingCount := u.followingCount + 1 } else u)

/-- `FollowRepository.Create`: `INSERT INTO follows ... ON CONFLICT DO
NOTHING`.  The `follows` primary key `(follower_id, followee_id)` makes the
duplicate insert a no-op, in which case the `AFTER INSERT` trigger
`update_follow_counts` does not fire; on an actual insert the trigger bumps
both counters in the same atomic statement.  Fails (`none`) only when a
foreign key is violated. -/
def FollowRepository.Create (s : RelStore) (a b : Int) : Option RelStore :=
  if s.users.any (fun u => decide (u.id = a)) && s.users.any (fun u => decide (u.id = b)) then
    if (a, b) ∈ s.follows then some s
    else some { s with
      follows := s.follows ++ [(a, b)],
      users := bumpFollowingCount (bumpFollowerCount s.users b) a }
  else none

/-- `n`-fold repetition of `FollowRepository.Create` for the idempotence
claim. -/
def FollowRepository.CreateN : Nat → RelStore → Int → Int → Option RelStore
  | 0, s, _, _ => some s
  | n + 1, s, a, b => (FollowRepository.Create s a b).bind (fun s2 => FollowRepository.CreateN n s2 a b)

/-! ## The Redis sorted-set model and the timeline cache -/

/-- A Redis sorted set: `(member, score)` pairs, kept ascending by
`(score, member)` — Redis rank order. -/
abbrev ZSet := List (Int × Int)

/-- Rank (non-strict) comparison of sorted-set entries: by score, member
breaking ties. -/
def zkeyLe (p q : Int × Int) : Prop :=
  p.2 < q.2 ∨ (p.2 = q.2 ∧ p.1 ≤ q.1)

instance : DecidableRel zkeyLe := fun p q => by
  unfold zkeyLe; infer_instance

/-- Insert an entry at its rank position. -/
def zinsert (p : Int × Int) : ZSet → ZSet
  | [] => [p]
  | q :: rest => if zkeyLe p q then p :: q :: rest else q :: zinsert p rest

/-- `ZADD key score member`: replace any entry of the member, insert at rank
position. -/
def zadd (z : ZSet) (m sc : Int) : ZSet :=
  zinsert (m, sc) (z.filter (fun e => decide (e.1 ≠ m)))

/-- `ZREMRANGEBYRANK key 0 -(maxSize+1)`: drop the lowest-ranked entries
until at most `maxSize` remain. -/
def ztrim (maxSize : Nat) (z : ZSet) : ZSet :=
  z.drop (z.length - maxSize)

/-- `ZREM key member`. -/
def zrem (z : ZSet) (m : Int) : ZSet :=
  z.filter (fun e => decide (e.1 ≠ m))

/-- `ZREVRANGE key start stop` with Redis index normalisation (negative
indices count from the end; out-of-range clamps; inverted range is empty). -/
def zrevrange (z : ZSet) (start stop : Int) : List Int :=
  let n : Int := z.length
  let s : Int := if start < 0 then max (n + start) 0 else start
  let e : Int := min (if stop < 0 then n + stop else stop) (n - 1)
  if s ≤ e ∧ s < n then ((z.map (fun p => p.1)).reverse.drop s.toNat).take (e - s + 1).toNat
  else []

/-- The cache state: per-user timeline sorted sets (`timeline:{uid}`), the
tweet object cache (`tweet:{pid}`), and the per-celebrity recent index
(`celebrity:tweets:{uid}`).  TTLs are not modelled. -/
structure Cache where
  timelines : Int → ZSet
  tweetCache : Int → Option Tweet
  celebTweets : Int → ZSet

/-- Point update of a keyed family. -/
def upd {α : Type} (f : Int → α) (k : Int) (v : α) : Int → α :=
  fun x => if x = k then v else f x

/-- The cache with every key absent. -/
def emptyCache : Cache :=
  { timelines := fun _ => [], tweetCache := fun _ => none, celebTweets := fun _ => [] }

/-- `TimelineCache.AddToTimeline`: `ZADD` the tweet id scored by
`created_at` nanos, then `ZREMRANGEBYRANK 0 -(maxSize+1)` (and a TTL
refresh, not modelled). -/
def TimelineCache.AddToTimeline (c : Cache) (maxSize : Nat) (uid : Int) (t : Tweet) : Cache :=
  { c with timelines := upd c.timelines uid (ztrim maxSize (zadd (c.timelines uid) t.id t.createdAt)) }

/-- `TimelineCache.AddToTimelineBatch`: the same insert pipelined for every
target uid. -/
def TimelineCache.AddToTimelineBatch (c : Cache) (maxSize : Nat) (uids : List Int) (t : Tweet) :
    Cache :=
  uids.foldl (fun acc u => TimelineCache.AddToTimeline acc maxSize u t) c

/-- `TimelineCache.GetTimeline`: `ZREVRANGE timeline:{uid} offset
offset+limit-1` (the stored decimal members parse back to the same ids). -/
def TimelineCache.GetTimeline (c : Cache) (uid : Int) (limit offset : Int) : List Int :=
  zrevrange (c.timelines uid) offset (offset + limit - 1)

/-- `TimelineCache.RemoveFromTimeline`. -/
def TimelineCache.RemoveFromTimeline (c : Cache) (uid : Int) (pid : Int) : Cache :=
  { c with timelines := upd c.timelines uid (zrem (c.timelines uid) pid) }

/-- `TimelineCache.ClearTimeline`: `DEL timeline:{uid}`. -/
def TimelineCache.ClearTimeline (c : Cache) (uid : Int) : Cache :=
  { c with timelines := upd c.timelines uid [] }

/-- `TimelineCache.CacheTweet`: store the marshalled tweet under
`tweet:{pid}`. -/
def TimelineCache.CacheTweet (c : Cache) (t : Tweet) : Cache :=
  { c with tweetCache := upd c.tweetCache t.id (some t) }

/-- `TimelineCache.CacheTweetsBatch`. -/
def TimelineCache.CacheTweetsBatch (c : Cache) (ts : List Tweet) : Cache :=
  ts.foldl TimelineCache.CacheTweet c

/-- `TimelineCache.GetCachedTweets`: multi-get in id order; hits in
traversal order, missing ids collected separately. -/
def TimelineCache.GetCachedTweets (c : Cache) (ids : List Int) : List Tweet × List Int :=
  (ids.filterMap (fun i => c.tweetCache i), ids.filter (fun i => (c.tweetCache i).isNone))

/-- `TimelineCache.AddCelebrityTweet`: `ZADD` into
`celebrity:tweets:{uid}`, trim to the newest 100. -/
def TimelineCache.AddCelebrityTweet (c : Cache) (uid : Int) (t : Tweet) : Cache :=
  { c with celebTweets := upd c.celebTweets uid (ztrim 100 (zadd (c.celebTweets uid) t.id t.createdAt)) }

/-- `TimelineCache.GetCelebrityTweetsBatch`: pipelined
`ZREVRANGE celebrity:tweets:{u} 0 limitPerUser-1` for each celebrity,
results concatenated. -/
def TimelineCache.GetCelebrityTweetsBatch (c : Cache) (uids : List Int) (limitPerUser : Int) :
    List Int :=
  (uids.map (fun u => zrevrange (c.celebTweets u) 0 (limitPerUser - 1))).flatten

/-! ## Fault injection and the strategy operations -/

/-- Fault-injection flags, one per fallible call site of the strategy
functions (`true` means that call returns a transient error). -/
structure Fx where
  createTweetFails : Bool := false
  getUserFails : Bool := false
  getFollowersFails : Bool := false
  getByIdsFails : Bool := false
  getRecentFails : Bool := false
  getByUserIdsFails : Bool := false
  getFollowingFails : Bool := false
  getFollowingCelebsFails : Bool := false
  cacheTweetFails : Bool := false
  addToTimelineFails : Bool := false
  addBatchFails : Bool := false
  addCelebrityFails : Bool := false
  cacheGetTimelineFails : Bool := false
  getCachedTweetsFails : Bool := false
  getCachedCelebTweetsFails : Bool := false
  celebBatchFails : Bool := false
  cacheBatchPutFails : Bool := false
deriving Repr, DecidableEq

/-- The fault-free environment: every store and cache call succeeds. -/
def Fx.ok : Fx := {}

/-- `timeline.OperationMetrics` (timestamps and durations omitted: wall
clock is not modelled). -/
structure OpMetrics where
  strategy : String
  operation : String
  fanOutCount : Nat := 0
  cacheHit : Bool := false
  success : Bool := false
  errorMsg : Option String := none
deriving Repr, DecidableEq

/-- The full system state threaded through an operation. -/
structure Sys where
  db : RelStore
  cache : Cache

/-- Result of a `PostTweet` call: `(tweet, metrics, err)` plus the state
after the call. -/
structure PostResult where
  tweet : Option Tweet
  metrics : OpMetrics
  err : Option String
  sys : Sys

/-- Result of a `GetTimeline` call: `(tweets, metrics, err)` plus the state
after the call. -/
structure ReadResult where
  tweets : List Tweet
  metrics : OpMetrics
  err : Option String
  sys : Sys

/-- The durable insert as the strategies see it: `tweetRepo.Create` under
fault injection. -/
def dbCreateTweet (fx : Fx) (s : RelStore) (uid : Int) (content : String) (now : Int) :
    Option (Tweet × RelStore) :=
  if fx.createTweetFails then none else TweetRepository.Create s uid content now

/-- `FanOutWriteStrategy.PostTweet` (`fanout_write.go`): durable insert,
best-effort username lookup (no state effect, modelled away), best-effort
object cache, `GetFollowers` (fatal on error), pipelined fan-out,
author's own timeline. -/
def FanOutWriteStrategy.PostTweet (maxSize : Nat) (fx : Fx) (s : Sys) (userID : Int)
    (content : String) (now : Int) : PostResult :=
  let m0 : OpMetrics := { strategy := "fanout_write", operation := "post_tweet" }
  match dbCreateTweet fx s.db userID content now with
  | none =>
    { tweet := none, metrics := { m0 with errorMsg := some "failed to create tweet" },
      err := some "failed to create tweet", sys := s }
  | some (tweet, db1) =>
    let c1 := if fx.cacheTweetFails then s.cache else TimelineCache.CacheTweet s.cache tweet
    match (if fx.getFollowersFails then none else some (FollowRepository.GetFollowers db1 userID)) with
    | none =>
      { tweet := some tweet, metrics := { m0 with errorMsg := some "failed to get followers" },
        err := some "failed to get followers", sys := { db := db1, cache := c1 } }
    | some followers =>
      let c2 := if 0 < followers.length then
          (if fx.addBatchFails then c1 else TimelineCache.AddToTimelineBatch c1 maxSize followers tweet)
        else c1
      let c3 := if fx.addToTimelineFails then c2 else TimelineCache.AddToTimeline c2 maxSize userID tweet
      { tweet := some tweet,
        metrics := { m0 with fanOutCount := followers.length, success := true },
        err := none, sys := { db := db1, cache := c3 } }

/-- `FanOutWriteStrategy.GetTimeline` (`fanout_write.go`): ids from the
cached timeline (fatal on cache error), hydrate from the object cache,
fetch the misses from the store (fatal on error), write the fetched rows
back, sort by time. -/
def FanOutWriteStrategy.GetTimeline (fx : Fx) (s : Sys) (userID : Int) (limit offset : Int) :
    ReadResult :=
  let m0 : OpMetrics := { strategy := "fanout_write", operation := "get_timeline" }
  match (if fx.cacheGetTimelineFails then none
         else some (TimelineCache.GetTimeline s.cache userID limit offset)) with
  | none =>
    { tweets := [], metrics := { m0 with errorMsg := some "failed to get timeline from cache" },
      err := some "failed to get timeline from cache", sys := s }
  | some tweetIDs =>
    if tweetIDs.length = 0 then
      { tweets := [], metrics := { m0 with success := true }, err := none, sys := s }
    else
      let hm := if fx.getCachedTweetsFails then ([], tweetIDs)
        else TimelineCache.GetCachedTweets s.cache tweetIDs
      if 0 < hm.2.length then
        match (if fx.getByIdsFails then none else some (TweetRepository.GetByIDs s.db hm.2)) with
        | none =>
          { tweets := hm.1,
            metrics := { m0 with cacheHit := true, errorMsg := some "failed to get tweets from DB" },
            err := some "failed to get tweets from DB", sys := s }
        | some dbTweets =>
          let c1 := if fx.cacheBatchPutFails then s.cache
            else TimelineCache.CacheTweetsBatch s.cache dbTweets
          { tweets := sortTweetsByTime (hm.1 ++ dbTweets),
            metrics := { m0 with cacheHit := true, success := true },
            err := none, sys := { s with cache := c1 } }
      else
        { tweets := sortTweetsByTime hm.1,
          metrics := { m0 with cacheHit := true, success := true }, err := none, sys := s }

/-- `FanOutReadStrategy.PostTweet` (`fanout_read.go`): durable insert,
best-effort username lookup, best-effort object cache; no fan-out. -/
def FanOutReadStrategy.PostTweet (fx : Fx) (s : Sys) (userID : Int) (content : String)
    (now : Int) : PostResult :=
  let m0 : OpMetrics := { strategy := "fanout_read", operation := "post_tweet" }
  match dbCreateTweet fx s.db userID content now with
  | none =>
    { tweet := none, metrics := { m0 with errorMsg := some "failed to create tweet" },
      err := some "failed to create tweet", sys := s }
  | some (tweet, db1) =>
    let c1 := if fx.cacheTweetFails then s.cache else TimelineCache.CacheTweet s.cache tweet
    { tweet := some tweet, metrics := { m0 with success := true, fanOutCount := 0 },
      err := none, sys := { db := db1, cache := c1 } }

/-- `FanOutReadStrategy.GetTimeline` (`fanout_read.go`): merge the followed
authors with the reader, fetch recent posts per author (falling back to the
plain query on error), sort, slice, write the page back to the object
cache. -/
def FanOutReadStrategy.GetTimeline (fx : Fx) (s : Sys) (userID : Int) (limit offset : Int) :
    ReadResult :=
  let m0 : OpMetrics := { strategy := "fanout_read", operation := "get_timeline" }
  match (if fx.getFollowingFails then none else some (FollowRepository.GetFollowing s.db userID)) with
  | none =>
    { tweets := [], metrics := { m0 with errorMsg := some "failed to get following" },
      err := some "failed to get following", sys := s }
  | some following0 =>
    let following := following0 ++ [userID]
    let m1 := { m0 with fanOutCount := following.length }
    if following.length = 0 then
      { tweets := [], metrics := { m1 with success := true }, err := none, sys := s }
    else
      match (if fx.getRecentFails then none
             else some (TweetRepository.GetRecentByUserIDs s.db following 10 (limit + offset))) with
      | some tweets =>
        let final := applyLimit (applyOffset (sortTweetsByTime tweets) offset) limit
        let c1 := if fx.cacheBatchPutFails then s.cache
          else TimelineCache.CacheTweetsBatch s.cache final
        { tweets := final, metrics := { m1 with success := true, cacheHit := false },
          err := none, sys := { s with cache := c1 } }
      | none =>
        match (if fx.getByUserIdsFails then none
               else some (TweetRepository.GetByUserIDs s.db following (limit + offset))) with
        | none =>
          { tweets := [], metrics := { m1 with errorMsg := some "failed to get tweets" },
            err := some "failed to get tweets", sys := s }
        | some tweets =>
          let final := applyLimit (applyOffset (sortTweetsByTime tweets) offset) limit
          let c1 := if fx.cacheBatchPutFails then s.cache
            else TimelineCache.CacheTweetsBatch s.cache final
          { tweets := final, metrics := { m1 with success := true, cacheHit := false },
            err := none, sys := { s with cache := c1 } }

/-- `HybridStrategy.PostTweet` (`hybrid.go`): durable insert, author lookup
(fatal on error), best-effort object cache, then the celebrity split —
celebrity posts go to the celebrity index with no fan-out, others fan out to
every follower; the author's own timeline always receives the post. -/
def HybridStrategy.PostTweet (threshold : Int) (maxSize : Nat) (fx : Fx) (s : Sys)
    (userID : Int) (content : String) (now : Int) : PostResult :=
  let m0 : OpMetrics := { strategy := "hybrid", operation := "post_tweet" }
  match dbCreateTweet fx s.db userID content now with
  | none =>
    { tweet := none, metrics := { m0 with errorMsg := some "failed to create tweet" },
      err := some "failed to create tweet", sys := s }
  | some (tweet, db1) =>
    match (if fx.getUserFails then none else UserRepository.GetByID db1 userID) with
    | none =>
      { tweet := some tweet, metrics := { m0 with errorMsg := some "failed to get author" },
        err := some "failed to get author", sys := { db := db1, cache := s.cache } }
    | some author =>
      let c1 := if fx.cacheTweetFails then s.cache else TimelineCache.CacheTweet s.cache tweet
      if author.IsCelebrity threshold then
        let c2 := if fx.addCelebrityFails then c1 else TimelineCache.AddCelebrityTweet c1 userID tweet
        let c3 := if fx.addToTimelineFails then c2 else TimelineCache.AddToTimeline c2 maxSize userID tweet
        { tweet := some tweet, metrics := { m0 with fanOutCount := 0, success := true },
          err := none, sys := { db := db1, cache := c3 } }
      else
        match (if fx.getFollowersFails then none
               else some (FollowRepository.GetFollowers db1 userID)) with
        | none =>
          { tweet := some tweet, metrics := { m0 with errorMsg := some "failed to get followers" },
            err := some "failed to get followers", sys := { db := db1, cache := c1 } }
        | some followers =>
          let c2 := if 0 < followers.length then
              (if fx.addBatchFails then c1
               else TimelineCache.AddToTimelineBatch c1 maxSize followers tweet)
            else c1
          let c3 := if fx.addToTimelineFails then c2
            else TimelineCache.AddToTimeline c2 maxSize userID tweet
          { tweet := some tweet,
            metrics := { m0 with fanOutCount := followers.length, success := true },
            err := none, sys := { db := db1, cache := c3 } }

/-- `HybridStrategy.GetTimeline` (`hybrid.go`): over-fetch the push-side
cached timeline, hydrate it (cache first, whole-list store fetch if
incomplete), pull the followed celebrities' recent posts (index first,
store augmentation when sparse), merge, deduplicate, sort, slice, write the
page back.  Every sub-call failure is degraded, never surfaced. -/
def HybridStrategy.GetTimeline (threshold : Int) (fx : Fx) (s : Sys) (userID : Int)
    (limit offset : Int) : ReadResult :=
  let m0 : OpMetrics := { strategy := "hybrid", operation := "get_timeline" }
  let cachedTweetIDs := if fx.cacheGetTimelineFails then []
    else TimelineCache.GetTimeline s.cache userID (limit * 2) 0
  let cacheHit := decide (0 < cachedTweetIDs.length)
  let cachedTweets :=
    if 0 < cachedTweetIDs.length then
      match (if fx.getCachedTweetsFails then none
             else some (TimelineCache.GetCachedTweets s.cache cachedTweetIDs)) with
      | none => if fx.getByIdsFails then [] else TweetRepository.GetByIDs s.db cachedTweetIDs
      | some hm =>
        if hm.1.length < cachedTweetIDs.length then
          (if fx.getByIdsFails then [] else TweetRepository.GetByIDs s.db cachedTweetIDs)
        else hm.1
    else []
  let celebrities := if fx.getFollowingCelebsFails then []
    else FollowRepository.GetFollowingCelebrities s.db userID threshold
  let celebrityIDs := celebrities.map (fun u => u.id)
  let celebrityTweets :=
    if 0 < celebrities.length then
      let fromIndex :=
        match (if fx.celebBatchFails then none
               else some (TimelineCache.GetCelebrityTweetsBatch s.cache celebrityIDs 20)) with
        | none => []
        | some ids =>
          if 0 < ids.length then
            (if fx.getCachedCelebTweetsFails then []
             else (TimelineCache.GetCachedTweets s.cache ids).1)
          else []
      if fromIndex.length < celebrities.length * 5 then
        match (if fx.getRecentFails then none
               else some (TweetRepository.GetRecentByUserIDs s.db celebrityIDs 10 limit)) with
        | none => fromIndex
        | some dbTweets => deduplicateTweets (fromIndex ++ dbTweets)
      else fromIndex
    else []
  let allTweets := sortTweetsByTime (deduplicateTweets (mergeTweets cachedTweets celebrityTweets (limit * 2)))
  let final := applyLimit (applyOffset allTweets offset) limit
  let c1 := if fx.cacheBatchPutFails then s.cache else TimelineCache.CacheTweetsBatch s.cache final
  { tweets := final,
    metrics := { m0 with cacheHit := cacheHit, fanOutCount := celebrities.length, success := true },
    err := none, sys := { s with cache := c1 } }

/-! ## Cache-operation sequences (for the bounded-timeline invariant) -/

/-- The timeline-cache mutations named by the bounded-timeline claim;
`rebuild` is the strategies' `RebuildTimeline` cache effect: clear, then
re-add each fetched tweet. -/
inductive CacheOp where
  | add (uid : Int) (t : Tweet)
  | addBatch (uids : List Int) (t : Tweet)
  | remove (uid : Int) (pid : Int)
  | clear (uid : Int)
  | rebuild (uid : Int) (ts : List Tweet)

/-- Apply one cache operation. -/
def applyCacheOp (maxSize : Nat) (c : Cache) : CacheOp → Cache
  | .add uid t => TimelineCache.AddToTimeline c maxSize uid t
  | .addBatch uids t => TimelineCache.AddToTimelineBatch c maxSize uids t
  | .remove uid pid => TimelineCache.RemoveFromTimeline c uid pid
  | .clear uid => TimelineCache.ClearTimeline c uid
  | .rebuild uid ts =>
    ts.foldl (fun acc t => TimelineCache.AddToTimeline acc maxSize uid t)
      (TimelineCache.ClearTimeline c uid)

/-- Apply a sequence of cache operations in order. -/
def applyCacheOps (maxSize : Nat) (ops : List CacheOp) (c : Cache) : Cache :=
  ops.foldl (applyCacheOp maxSize) c

/-! ## Well-formed states

`WfDb` collects the integrity constraints PostgreSQL enforces (primary
keys) together with the one invariant all writers maintain: no self-follow
edge (the HTTP surface exposes no follow-creating endpoint and the seeder
skips `followerIdx == followeeIdx`).  `WfCache` states that sorted-set
members are unique — Redis guarantees this — and that an object-cache entry
stored under `tweet:{pid}` is the marshalled tweet with that id, which
`CacheTweet` guarantees. -/

def WfDb (s : RelStore) : Prop :=
  (s.tweets.map (fun t => t.id)).Nodup ∧
  (s.users.map (fun u => u.id)).Nodup ∧
  s.follows.Nodup ∧
  (∀ e ∈ s.follows, e.1 ≠ e.2)

def WfCache (c : Cache) : Prop :=
  (∀ uid, ((c.timelines uid).map (fun p => p.1)).Nodup) ∧
  (∀ pid t, c.tweetCache pid = some t → t.id = pid)

def WfSys (s : Sys) : Prop :=
  WfDb s.db ∧ WfCache s.cache

/-! ## Observation helpers -/

/-- The `follower_count` column of user `u` (0 when the row is absent). -/
def followerCountOf (s : RelStore) (u : Int) : Int :=
  match UserRepository.GetByID s u with
  | some x => x.followerCount
  | none => 0

/-- The `following_count` column of user `u` (0 when the row is absent). -/
def followingCountOf (s : RelStore) (u : Int) : Int :=
  match UserRepository.GetByID s u with
  | some x => x.followingCount
  | none => 0

/-- The order the spec claims for timeline reads: strictly newer first,
equal timestamps broken by id (newer id — the larger serial — first, the
order a reverse range over a nanosecond-scored set would give). -/
def strictByTimeThenId (a b : Tweet) : Prop :=
  b.createdAt < a.createdAt ∨ (b.createdAt = a.createdAt ∧ b.id < a.id)

instance : DecidableRel strictByTimeThenId := fun a b => by
  unfold strictByTimeThenId; infer_instance

/-- Output order every strategy actually guarantees: non-increasing
`created_at`. -/
def SortedByTimeDesc (l : List Tweet) : Prop :=
  l.Pairwise byTimeDesc

/-- Spec-side definition of the pull read path, written from the words of
the specification: `followees = GetFollowing(uid) ∪ {uid}` (a set; empty
yields empty), then the time-sorted merged recent posts of the followees
with the offset applied and the result truncated to `limit`. -/
def pullTimelineSpecList (db : RelStore) (uid : Int) (limit offset : Int) : List Tweet :=
  let followees := (FollowRepository.GetFollowing db uid ++ [uid]).dedup
  if followees.isEmpty then []
  else applyLimit (applyOffset
    (sortTweetsByTime (TweetRepository.GetRecentByUserIDs db followees 10 (limit + offset)))
    offset) limit

/-! ## Concrete states used to witness the theorems -/

def exu1 : User := { id := 1, username := "alice", followerCount := 2, followingCount := 0 }

def exu2 : User := { id := 2, username := "bob", followerCount := 0, followingCount := 1 }

def exu3 : User := { id := 3, username := "carol", followerCount := 0, followingCount := 1 }

def ext1 : Tweet := { id := 1, userId := 2, content := "x", createdAt := 5 }

def ext2 : Tweet := { id := 2, userId := 3, content := "y", createdAt := 5 }

def exDb : RelStore :=
  { users := [exu1, exu2, exu3], tweets := [ext1, ext2], follows := [(1, 2), (1, 3)],
    nextTweetId := 3 }

def exSys : Sys := { db := exDb, cache := emptyCache }

/-! ## Helper lemmas -/

theorem wfCache_empty : WfCache emptyCache := by
  refine ⟨fun uid => ?_, fun pid t h => ?_⟩
  · simp [emptyCache]
  · simp [emptyCache] at h

theorem wfSys_exSys : WfSys exSys := by
  refine ⟨?_, wfCache_empty⟩
  refine ⟨?_, ?_, ?_, ?_⟩ <;> decide

theorem create_mem_tweets {s s2 : RelStore} {uid : Int} {content : String} {now : Int}
    {t : Tweet} (h : TweetRepository.Create s uid content now = some (t, s2)) :
    t ∈ s2.tweets := by
  unfold TweetRepository.Create at h
  by_cases hu : s.users.any (fun u => decide (u.id = uid)) <;> simp [hu] at h
  rcases h with ⟨ht, hs⟩
  subst hs
  simp [ht.symm]

/-! ## The claims -/

/-- C10: the hybrid read path is total on its error channel — for every
input and every combination of sub-call faults, `HybridStrategy.GetTimeline`
returns no error and marks the operation successful.  (`limit`/`offset` are
the nonnegative values the HTTP layer admits.) -/
theorem hybrid_getTimeline_never_errors (threshold : Int) (fx : Fx) (s : Sys)
    (userID limit offset : Int) (hl : 0 ≤ limit) (ho : 0 ≤ offset) :
    (HybridStrategy.GetTimeline threshold fx s userID limit offset).err = none ∧
    (HybridStrategy.GetTimeline threshold fx s userID limit offset).metrics.success = true :=
  ⟨rfl, rfl⟩

/-- Witness for C10 at a concrete input. -/
theorem hybrid_getTimeline_never_errors_witness :
    (0 : Int) ≤ 50 ∧ (0 : Int) ≤ 0 ∧
    ((HybridStrategy.GetTimeline 2 Fx.ok exSys 1 50 0).err = none ∧
     (HybridStrategy.GetTimeline 2 Fx.ok exSys 1 50 0).metrics.success = true) :=
  ⟨by decide, by decide, hybrid_getTimeline_never_errors 2 Fx.ok exSys 1 50 0 (by decide) (by decide)⟩

/-- C1: in every strategy, a failed durable insert fails the whole
`PostTweet` and leaves the entire state — in particular every cache
namespace, so no entry referencing the would-be pid — untouched; and every
successful `PostTweet` has stored its tweet durably in the relational
store. -/
theorem postTweet_durability_before_visibility (threshold : Int) (maxSize : Nat) (fx : Fx)
    (s : Sys) (uid : Int) (content : String) (now : Int) :
    (dbCreateTweet fx s.db uid content now = none →
      ((FanOutWriteStrategy.PostTweet maxSize fx s uid content now).err ≠ none ∧
       (FanOutWriteStrategy.PostTweet maxSize fx s uid content now).sys = s ∧
       (FanOutReadStrategy.PostTweet fx s uid content now).err ≠ none ∧
       (FanOutReadStrategy.PostTweet fx s uid content now).sys = s ∧
       (HybridStrategy.PostTweet threshold maxSize fx s uid content now).err ≠ none ∧
       (HybridStrategy.PostTweet threshold maxSize fx s uid content now).sys = s)) ∧
    ((FanOutWriteStrategy.PostTweet maxSize fx s uid content now).err = none →
      ∃ t, (FanOutWriteStrategy.PostTweet maxSize fx s uid content now).tweet = some t ∧
        t ∈ (FanOutWriteStrategy.PostTweet maxSize fx s uid content now).sys.db.tweets) ∧
    ((FanOutReadStrategy.PostTweet fx s uid content now).err = none →
      ∃ t, (FanOutReadStrategy.PostTweet fx s uid content now).tweet = some t ∧
        t ∈ (FanOutReadStrategy.PostTweet fx s uid content now).sys.db.tweets) ∧
    ((HybridStrategy.PostTweet threshold maxSize fx s uid content now).err = none →
      ∃ t, (HybridStrategy.PostTweet threshold maxSize fx s uid content now).tweet = some t ∧
        t ∈ (HybridStrategy.PostTweet threshold maxSize fx s uid content now).sys.db.tweets) := by
  refine ⟨fun hc => ?_, ?_, ?_, ?_⟩
  · unfold FanOutWriteStrategy.PostTweet FanOutReadStrategy.PostTweet HybridStrategy.PostTweet
    simp [hc]
  · unfold FanOutWriteStrategy.PostTweet
    cases hc : dbCreateTweet fx s.db uid content now with
    | none => simp
    | some pr =>
      obtain ⟨t, db1⟩ := pr
      have hmem : t ∈ db1.tweets := by
        unfold dbCreateTweet at hc
        by_cases hf : fx.createTweetFails
        · simp [hf] at hc
        · exact create_mem_tweets (by simpa [hf] using hc)
      cases hf : fx.getFollowersFails <;> simp [hf, hmem]
  · unfold FanOutReadStrategy.PostTweet
    cases hc : dbCreateTweet fx s.db uid content now with
    | none => simp
    | some pr =>
      obtain ⟨t, db1⟩ := pr
      have hmem : t ∈ db1.tweets := by
        unfold dbCreateTweet at hc
        by_cases hf : fx.createTweetFails
        · simp [hf] at hc
        · exact create_mem_tweets (by simpa [hf] using hc)
      simp [hmem]
  · unfold HybridStrategy.PostTweet
    cases hc : dbCreateTweet fx s.db uid content now with
    | none => simp
    | some pr =>
      obtain ⟨t, db1⟩ := pr
      have hmem : t ∈ db1.tweets := by
        unfold dbCreateTweet at hc
        by_cases hf : fx.createTweetFails
        · simp [hf] at hc
        · exact create_mem_tweets (by simpa [hf] using hc)
      cases hu : (if fx.getUserFails then none else UserRepository.GetByID db1 uid) with
      | none => simp [hu]
      | some author =>
        by_cases hcel : author.IsCelebrity threshold
        · simp [hu, hcel, hmem]
        · cases hf : fx.getFollowersFails <;> simp [hu, hcel, hf, hmem]

/-- Witness for C1: a concrete failed insert leaves the state unchanged,
and a concrete successful hybrid post is durable. -/
theorem postTweet_durability_before_visibility_witness :
    (dbCreateTweet { createTweetFails := true } exSys.db 2 "hi" 10 = none →
      ((FanOutWriteStrategy.PostTweet 800 { createTweetFails := true } exSys 2 "hi" 10).err ≠ none ∧
       (FanOutWriteStrategy.PostTweet 800 { createTweetFails := true } exSys 2 "hi" 10).sys = exSys ∧
       (FanOutReadStrategy.PostTweet { createTweetFails := true } exSys 2 "hi" 10).err ≠ none ∧
       (FanOutReadStrategy.PostTweet { createTweetFails := true } exSys 2 "hi" 10).sys = exSys ∧
       (HybridStrategy.PostTweet 2 800 { createTweetFails := true } exSys 2 "hi" 10).err ≠ none ∧
       (HybridStrategy.PostTweet 2 800 { createTweetFails := true } exSys 2 "hi" 10).sys = exSys)) ∧
    (∃ t, (HybridStrategy.PostTweet 2 800 Fx.ok exSys 2 "hi" 10).tweet = some t ∧
      t ∈ (HybridStrategy.PostTweet 2 800 Fx.ok exSys 2 "hi" 10).sys.db.tweets) :=
  ⟨(postTweet_durability_before_visibility 2 800 { createTweetFails := true } exSys 2 "hi" 10).1,
   (postTweet_durability_before_visibility 2 800 Fx.ok exSys 2 "hi" 10).2.2.2 rfl⟩

/-- C7 counterexample: a push `PostTweet` whose durable insert succeeds but
whose `GetFollowers` fails returns a non-nil error to the caller — the
operation does not "succeed with the error recorded only in metrics". -/
theorem push_postTweet_followers_error_counterexample :
    (FanOutWriteStrategy.PostTweet 800 { getFollowersFails := true } exSys 2 "hi" 10).err =
      some "failed to get followers" := rfl

/-- C7 as amended: when the durable insert succeeds and `GetFollowers`
fails, the push `PostTweet` returns the created tweet together with a
non-nil error (the error also recorded in metrics and the operation not
marked successful); the post remains durable in the relational store and no
timeline or celebrity-index entry is written, so it is visible only via the
pull path. -/
theorem push_postTweet_followers_failure_durable (maxSize : Nat) (fx : Fx) (s : Sys)
    (uid : Int) (content : String) (now : Int)
    (hcf : fx.createTweetFails = false)
    (hff : fx.getFollowersFails = true)
    (hu : s.db.users.any (fun u => decide (u.id = uid)) = true) :
    (FanOutWriteStrategy.PostTweet maxSize fx s uid content now).err ≠ none ∧
    (FanOutWriteStrategy.PostTweet maxSize fx s uid content now).metrics.errorMsg ≠ none ∧
    (FanOutWriteStrategy.PostTweet maxSize fx s uid content now).metrics.success = false ∧
    (∃ t, (FanOutWriteStrategy.PostTweet maxSize fx s uid content now).tweet = some t ∧
      t ∈ (FanOutWriteStrategy.PostTweet maxSize fx s uid content now).sys.db.tweets) ∧
    (∀ w, (FanOutWriteStrategy.PostTweet maxSize fx s uid content now).sys.cache.timelines w =
      s.cache.timelines w) ∧
    (∀ w, (FanOutWriteStrategy.PostTweet maxSize fx s uid content now).sys.cache.celebTweets w =
      s.cache.celebTweets w) := by
  cases hc : dbCreateTweet fx s.db uid content now with
  | none =>
    exfalso
    unfold dbCreateTweet TweetRepository.Create at hc
    rw [hcf] at hc
    simp [hu] at hc
  | some pr =>
    obtain ⟨t, db1⟩ := pr
    have hmem : t ∈ db1.tweets := by
      unfold dbCreateTweet at hc
      rw [hcf] at hc
      exact create_mem_tweets (by simpa using hc)
    unfold FanOutWriteStrategy.PostTweet
    cases hct : fx.cacheTweetFails <;>
      simp [hc, hff, hct, hmem, TimelineCache.CacheTweet]

/-- Witness for the amended C7 at a concrete input. -/
theorem push_postTweet_followers_failure_durable_witness :
    (FanOutWriteStrategy.PostTweet 800 { getFollowersFails := true } exSys 2 "hi" 10).err ≠ none ∧
    (FanOutWriteStrategy.PostTweet 800 { getFollowersFails := true } exSys 2 "hi" 10).metrics.errorMsg ≠ none ∧
    (FanOutWriteStrategy.PostTweet 800 { getFollowersFails := true } exSys 2 "hi" 10).metrics.success = false ∧
    (∃ t, (FanOutWriteStrategy.PostTweet 800 { getFollowersFails := true } exSys 2 "hi" 10).tweet = some t ∧
      t ∈ (FanOutWriteStrategy.PostTweet 800 { getFollowersFails := true } exSys 2 "hi" 10).sys.db.tweets) ∧
    (∀ w, (FanOutWriteStrategy.PostTweet 800 { getFollowersFails := true } exSys 2 "hi" 10).sys.cache.timelines w =
      exSys.cache.timelines w) ∧
    (∀ w, (FanOutWriteStrategy.PostTweet 800 { getFollowersFails := true } exSys 2 "hi" 10).sys.cache.celebTweets w =
      exSys.cache.celebTweets w) :=
  push_postTweet_followers_failure_durable 800 { getFollowersFails := true } exSys 2 "hi" 10
    (by decide) (by decide) (by decide)

/-- C6 counterexample: in the push strategy a transient fault of the cache
timeline-ID read makes `GetTimeline` return an error — it does not fall
through to the relational store. -/
theorem push_getTimeline_cache_fault_counterexample :
    (FanOutWriteStrategy.GetTimeline { cacheGetTimelineFails := true } exSys 1 50 0).err =
      some "failed to get timeline from cache" := rfl

/-- C6 as amended: the hybrid read path never errors, and the pull read
path never errors unless the relational store itself fails, whatever cache
faults occur; the push read path degrades a cached-post multi-get fault by
falling back to the relational store, but a fault of the timeline-ID cache
read is surfaced as an error. -/
theorem getTimeline_cache_fault_tolerance (threshold : Int) (fx : Fx) (s : Sys)
    (uid limit offset : Int) :
    ((HybridStrategy.GetTimeline threshold fx s uid limit offset).err = none) ∧
    (fx.getFollowingFails = false → fx.getRecentFails = false →
      (FanOutReadStrategy.GetTimeline fx s uid limit offset).err = none) ∧
    (fx.cacheGetTimelineFails = false → fx.getByIdsFails = false →
      (FanOutWriteStrategy.GetTimeline fx s uid limit offset).err = none) := by
  refine ⟨rfl, fun h1 h2 => ?_, fun h3 h4 => ?_⟩
  · unfold FanOutReadStrategy.GetTimeline
    simp only [h1, h2, Bool.false_eq_true, if_false]
    split <;> rfl
  · unfold FanOutWriteStrategy.GetTimeline
    simp only [h3, h4, Bool.false_eq_true, if_false]
    split
    · rfl
    · split <;> split <;> rfl

/-- Witness for the amended C6 at a concrete input: with every cache fault
injected at once, hybrid and pull still succeed, and push succeeds when
only the multi-get faults. -/
theorem getTimeline_cache_fault_tolerance_witness :
    ((HybridStrategy.GetTimeline 2
        { cacheGetTimelineFails := true, getCachedTweetsFails := true,
          getCachedCelebTweetsFails := true, celebBatchFails := true,
          cacheBatchPutFails := true } exSys 1 50 0).err = none) ∧
    ((FanOutReadStrategy.GetTimeline
        { cacheGetTimelineFails := true, getCachedTweetsFails := true,
          cacheBatchPutFails := true } exSys 1 50 0).err = none) ∧
    ((FanOutWriteStrategy.GetTimeline
        { getCachedTweetsFails := true, cacheBatchPutFails := true } exSys 1 50 0).err = none) :=
  ⟨(getTimeline_cache_fault_tolerance 2
      { cacheGetTimelineFails := true, getCachedTweetsFails := true,
        getCachedCelebTweetsFails := true, celebBatchFails := true,
        cacheBatchPutFails := true } exSys 1 50 0).1,
   (getTimeline_cache_fault_tolerance 2
      { cacheGetTimelineFails := true, getCachedTweetsFails := true,
        cacheBatchPutFails := true } exSys 1 50 0).2.1 (by decide) (by decide),
   (getTimeline_cache_fault_tolerance 2
      { getCachedTweetsFails := true, cacheBatchPutFails := true } exSys 1 50 0).2.2
      (by decide) (by decide)⟩

theorem find?_map_id_preserving (l : List User) (f : User → User)
    (hid : ∀ u, (f u).id = u.id) (uid : Int) :
    (l.map f).find? (fun u => decide (u.id = uid)) =
      (l.find? (fun u => decide (u.id = uid))).map f := by
  rw [List.find?_map]
  have hp : ((fun u => decide (u.id = uid)) ∘ f) = (fun u : User => decide (u.id = uid)) := by
    funext u
    simp [Function.comp, hid]
  rw [hp]

theorem any_map_id_preserving (l : List User) (f : User → User)
    (hid : ∀ u, (f u).id = u.id) (uid : Int) :
    (l.map f).any (fun u => decide (u.id = uid)) = l.any (fun u => decide (u.id = uid)) := by
  rw [List.any_map]
  have hp : ((fun u => decide (u.id = uid)) ∘ f) = (fun u : User => decide (u.id = uid)) := by
    funext u
    simp [Function.comp, hid]
  rw [hp]

theorem bumpFollower_id (b : Int) (u : User) :
    ((fun u => if u.id = b then { u with followerCount := u.followerCount + 1 } else u) u).id
      = u.id := by
  by_cases h : u.id = b <;> simp [h]

theorem bumpFollowing_id (a : Int) (u : User) :
    ((fun u => if u.id = a then { u with followingCount := u.followingCount + 1 } else u) u).id
      = u.id := by
  by_cases h : u.id = a <;> simp [h]

theorem follow_createN_absorb (s2 : RelStore) (a b : Int) (m : Nat)
    (ha : s2.users.any (fun u => decide (u.id = a)) = true)
    (hb : s2.users.any (fun u => decide (u.id = b)) = true)
    (hmem : (a, b) ∈ s2.follows) :
    FollowRepository.CreateN m s2 a b = some s2 := by
  induction m with
  | zero => rfl
  | succ k ih =>
    have hstep : FollowRepository.Create s2 a b = some s2 := by
      unfold FollowRepository.Create
      rw [ha, hb]
      simp [hmem]
    unfold FollowRepository.CreateN
    rw [hstep]
    simpa using ih

/-- C9: repeated `Follow.Create(a, b)` (any number of calls at least 1) from
a state with no `(a, b)` edge leaves exactly one such edge, and — in the
same atomic step that writes the edge, as the row trigger does — moves
`b`'s `follower_count` and `a`'s `following_count` up by exactly 1. -/
theorem follow_create_idempotent (s : RelStore) (a b : Int) (n : Nat)
    (ha : s.users.any (fun u => decide (u.id = a)) = true)
    (hb : s.users.any (fun u => decide (u.id = b)) = true)
    (hnot : (a, b) ∉ s.follows)
    (hn : 1 ≤ n) :
    ∃ s1, FollowRepository.CreateN n s a b = some s1 ∧
      s1.follows = s.follows ++ [(a, b)] ∧
      s1.follows.count (a, b) = 1 ∧
      followerCountOf s1 b = followerCountOf s b + 1 ∧
      followingCountOf s1 a = followingCountOf s a + 1 := by
  obtain ⟨m, rfl⟩ : ∃ m, n = m + 1 := ⟨n - 1, (Nat.succ_pred_eq_of_pos hn).symm⟩
  refine ⟨{ s with
    follows := s.follows ++ [(a, b)]
    users := bumpFollowingCount (bumpFollowerCount s.users b) a }, ?_, rfl, ?_, ?_, ?_⟩
  · have hstep : FollowRepository.Create s a b =
        some { s with
          follows := s.follows ++ [(a, b)]
          users := bumpFollowingCount (bumpFollowerCount s.users b) a } := by
      unfold FollowRepository.Create
      rw [ha, hb]
      simp [hnot]
    unfold FollowRepository.CreateN
    rw [hstep]
    refine Eq.trans (by simp) (follow_createN_absorb _ a b m ?_ ?_ ?_)
    · show ((s.users.map _).map _).any _ = true
      rw [any_map_id_preserving _ _ (bumpFollowing_id a),
        any_map_id_preserving _ _ (bumpFollower_id b)]
      exact ha
    · show ((s.users.map _).map _).any _ = true
      rw [any_map_id_preserving _ _ (bumpFollowing_id a),
        any_map_id_preserving _ _ (bumpFollower_id b)]
      exact hb
    · simp
  · rw [List.count_append, List.count_eq_zero_of_not_mem hnot]
    simp
  · obtain ⟨x, hx⟩ : ∃ x, s.users.find? (fun u => decide (u.id = b)) = some x := by
      rcases List.any_eq_true.mp hb with ⟨x, hxl, hpx⟩
      exact Option.isSome_iff_exists.mp (List.find?_isSome.mpr ⟨x, hxl, hpx⟩)
    have hxb : x.id = b := by simpa using List.find?_some hx
    unfold followerCountOf UserRepository.GetByID bumpFollowingCount bumpFollowerCount
    rw [find?_map_id_preserving _ _ (bumpFollowing_id a),
      find?_map_id_preserving _ _ (bumpFollower_id b), hx]
    by_cases hxa : x.id = a <;> simp [hxb, hxa] <;> split_ifs <;> simp_all
  · obtain ⟨y, hy⟩ : ∃ y, s.users.find? (fun u => decide (u.id = a)) = some y := by
      rcases List.any_eq_true.mp ha with ⟨y, hyl, hpy⟩
      exact Option.isSome_iff_exists.mp (List.find?_isSome.mpr ⟨y, hyl, hpy⟩)
    have hya : y.id = a := by simpa using List.find?_some hy
    unfold followingCountOf UserRepository.GetByID bumpFollowingCount bumpFollowerCount
    rw [find?_map_id_preserving _ _ (bumpFollowing_id a),
      find?_map_id_preserving _ _ (bumpFollower_id b), hy]
    by_cases hyb : y.id = b <;> simp [hya, hyb] <;> split_ifs <;> simp_all

/-- Witness for C9: three repeated creates of the edge `(2, 3)` on the
concrete store. -/
theorem follow_create_idempotent_witness :
    ∃ s1, FollowRepository.CreateN 3 exDb 2 3 = some s1 ∧
      s1.follows = exDb.follows ++ [(2, 3)] ∧
      s1.follows.count (2, 3) = 1 ∧
      followerCountOf s1 3 = followerCountOf exDb 3 + 1 ∧
      followingCountOf s1 2 = followingCountOf exDb 2 + 1 :=
  follow_create_idempotent exDb 2 3 3 (by decide) (by decide) (by decide) (by decide)

/-! ### Sorted-set order lemmas -/

instance : IsTotal (Int × Int) zkeyLe := by
  constructor
  intro p q
  unfold zkeyLe
  omega

instance : IsTrans (Int × Int) zkeyLe := by
  constructor
  intro p q r h1 h2
  unfold zkeyLe at h1 h2 ⊢
  omega

/-- A sorted set is rank-sorted. -/
def ZSorted (z : ZSet) : Prop := z.Pairwise zkeyLe

theorem zinsert_eq_orderedInsert (p : Int × Int) (z : ZSet) :
    zinsert p z = z.orderedInsert zkeyLe p := by
  induction z with
  | nil => rfl
  | cons q rest ih =>
    unfold zinsert List.orderedInsert
    by_cases h : zkeyLe p q <;> simp [h, ih]

theorem zsorted_zadd {z : ZSet} (hz : ZSorted z) (m sc : Int) : ZSorted (zadd z m sc) := by
  unfold zadd ZSorted
  rw [zinsert_eq_orderedInsert]
  exact List.Sorted.orderedInsert _ _ (List.Pairwise.sublist (List.filter_sublist z) hz)

theorem zsorted_ztrim {z : ZSet} (hz : ZSorted z) (k : Nat) : ZSorted (ztrim k z) :=
  List.Pairwise.sublist (List.drop_sublist _ z) hz

theorem zsorted_zrem {z : ZSet} (hz : ZSorted z) (m : Int) : ZSorted (zrem z m) :=
  List.Pairwise.sublist (List.filter_sublist z) hz

theorem ztrim_length_le (k : Nat) (z : ZSet) : (ztrim k z).length ≤ k := by
  unfold ztrim
  rw [List.length_drop]
  omega

/-- The invariant every reachable cache satisfies: each timeline sorted set
is rank-sorted and holds at most `maxSize` entries. -/
def TimelineInv (maxSize : Nat) (c : Cache) : Prop :=
  ∀ uid, ZSorted (c.timelines uid) ∧ (c.timelines uid).length ≤ maxSize

theorem timelineInv_empty (maxSize : Nat) : TimelineInv maxSize emptyCache := by
  intro uid
  exact ⟨List.Pairwise.nil, by simp [emptyCache]⟩

theorem timelineInv_add {maxSize : Nat} {c : Cache} (h : TimelineInv maxSize c)
    (uid : Int) (t : Tweet) : TimelineInv maxSize (TimelineCache.AddToTimeline c maxSize uid t) := by
  intro w
  unfold TimelineCache.AddToTimeline upd
  by_cases hw : w = uid
  · simp only [hw, if_pos rfl]
    exact ⟨zsorted_ztrim (zsorted_zadd (h uid).1 t.id t.createdAt) maxSize,
      ztrim_length_le maxSize _⟩
  · simp only [if_neg hw]
    exact h w

theorem timelineInv_addBatch {maxSize : Nat} {c : Cache} (h : TimelineInv maxSize c)
    (uids : List Int) (t : Tweet) :
    TimelineInv maxSize (TimelineCache.AddToTimelineBatch c maxSize uids t) := by
  induction uids generalizing c with
  | nil => exact h
  | cons u rest ih => exact ih (timelineInv_add h u t)

theorem timelineInv_remove {maxSize : Nat} {c : Cache} (h : TimelineInv maxSize c)
    (uid pid : Int) : TimelineInv maxSize (TimelineCache.RemoveFromTimeline c uid pid) := by
  intro w
  unfold TimelineCache.RemoveFromTimeline upd
  by_cases hw : w = uid
  · simp only [hw, if_pos rfl]
    refine ⟨zsorted_zrem (h uid).1 pid, le_trans ?_ (h uid).2⟩
    exact List.Sublist.length_le (List.filter_sublist _)
  · simp only [if_neg hw]
    exact h w

theorem timelineInv_clear {maxSize : Nat} {c : Cache} (h : TimelineInv maxSize c)
    (uid : Int) : TimelineInv maxSize (TimelineCache.ClearTimeline c uid) := by
  intro w
  unfold TimelineCache.ClearTimeline upd
  by_cases hw : w = uid
  · simp only [hw, if_pos rfl]
    exact ⟨List.Pairwise.nil, by simp⟩
  · simp only [if_neg hw]
    exact h w

theorem timelineInv_applyCacheOp {maxSize : Nat} {c : Cache} (h : TimelineInv maxSize c)
    (op : CacheOp) : TimelineInv maxSize (applyCacheOp maxSize c op) := by
  cases op with
  | add uid t => exact timelineInv_add h uid t
  | addBatch uids t => exact timelineInv_addBatch h uids t
  | remove uid pid => exact timelineInv_remove h uid pid
  | clear uid => exact timelineInv_clear h uid
  | rebuild uid ts =>
    show TimelineInv maxSize (ts.foldl _ (TimelineCache.ClearTimeline c uid))
    have h0 := timelineInv_clear h uid
    revert h0
    generalize TimelineCache.ClearTimeline c uid = c0
    intro h0
    induction ts generalizing c0 with
    | nil => exact h0
    | cons t rest ih => exact ih _ (timelineInv_add h0 uid t)

theorem timelineInv_applyCacheOps (maxSize : Nat) (ops : List CacheOp) {c : Cache}
    (h : TimelineInv maxSize c) : TimelineInv maxSize (applyCacheOps maxSize ops c) := by
  induction ops generalizing c with
  | nil => exact h
  | cons op rest ih => exact ih (timelineInv_applyCacheOp h op)

/-- C2: starting from an empty cache, after any sequence of timeline-cache
operations every cached timeline holds at most `TimelineCacheSize` entries;
and whenever an insert overflows a reachable timeline, the entries the trim
removes (the lowest-ranked prefix) all score no higher than every entry that
is kept — the lowest-scored (oldest) entries are the evicted ones. -/
theorem timeline_cache_bounded_and_evicts_lowest (maxSize : Nat) (ops : List CacheOp)
    (uid : Int) :
    ((applyCacheOps maxSize ops emptyCache).timelines uid).length ≤ maxSize ∧
    (∀ m sc,
      ∀ p ∈ (zadd ((applyCacheOps maxSize ops emptyCache).timelines uid) m sc).take
        ((zadd ((applyCacheOps maxSize ops emptyCache).timelines uid) m sc).length - maxSize),
      ∀ q ∈ (zadd ((applyCacheOps maxSize ops emptyCache).timelines uid) m sc).drop
        ((zadd ((applyCacheOps maxSize ops emptyCache).timelines uid) m sc).length - maxSize),
      p.2 ≤ q.2) := by
  have hinv := timelineInv_applyCacheOps maxSize ops (timelineInv_empty maxSize)
  refine ⟨(hinv uid).2, fun m sc p hp q hq => ?_⟩
  have hsorted : ZSorted (zadd ((applyCacheOps maxSize ops emptyCache).timelines uid) m sc) :=
    zsorted_zadd (hinv uid).1 m sc
  set za := zadd ((applyCacheOps maxSize ops emptyCache).timelines uid) m sc with hza
  have hsplit : za = za.take (za.length - maxSize) ++ za.drop (za.length - maxSize) :=
    (List.take_append_drop _ za).symm
  have hpq : zkeyLe p q := by
    have := List.pairwise_append.mp (hsplit ▸ hsorted)
    exact this.2.2 p hp q hq
  unfold zkeyLe at hpq
  omega

/-- Witness for C2's bound and eviction at a concrete overflowing insert. -/
theorem timeline_cache_bounded_and_evicts_lowest_witness :
    ((applyCacheOps 1 [CacheOp.add 1 ext1, CacheOp.add 1 ext2] emptyCache).timelines 1).length ≤ 1 ∧
    ((2 : Int), (5 : Int)).2 ≤ ((3 : Int), (7 : Int)).2 :=
  ⟨(timeline_cache_bounded_and_evicts_lowest 1 [CacheOp.add 1 ext1, CacheOp.add 1 ext2] 1).1,
   (timeline_cache_bounded_and_evicts_lowest 1 [CacheOp.add 1 ext1, CacheOp.add 1 ext2] 1).2
     3 7 (2, 5) (by decide) (3, 7) (by decide)⟩

/-! ### Cache-effect lemmas -/

theorem addToTimeline_timelines_self (c : Cache) (maxSize : Nat) (uid : Int) (t : Tweet) :
    (TimelineCache.AddToTimeline c maxSize uid t).timelines uid =
      ztrim maxSize (zadd (c.timelines uid) t.id t.createdAt) := by
  unfold TimelineCache.AddToTimeline upd
  simp

theorem addToTimeline_timelines_other {w uid : Int} (c : Cache) (maxSize : Nat) (t : Tweet)
    (hw : w ≠ uid) :
    (TimelineCache.AddToTimeline c maxSize uid t).timelines w = c.timelines w := by
  unfold TimelineCache.AddToTimeline upd
  simp [hw]

theorem addToTimeline_celebTweets (c : Cache) (maxSize : Nat) (uid : Int) (t : Tweet) :
    (TimelineCache.AddToTimeline c maxSize uid t).celebTweets = c.celebTweets := rfl

theorem addToTimeline_tweetCache (c : Cache) (maxSize : Nat) (uid : Int) (t : Tweet) :
    (TimelineCache.AddToTimeline c maxSize uid t).tweetCache = c.tweetCache := rfl

theorem batch_timelines_not_mem {w : Int} {uids : List Int} (c : Cache) (maxSize : Nat)
    (t : Tweet) (hw : w ∉ uids) :
    (TimelineCache.AddToTimelineBatch c maxSize uids t).timelines w = c.timelines w := by
  induction uids generalizing c with
  | nil => rfl
  | cons u rest ih =>
    have hwu : w ≠ u := fun h => hw (h ▸ List.mem_cons_self u rest)
    have hwr : w ∉ rest := fun h => hw (List.mem_cons_of_mem u h)
    show (TimelineCache.AddToTimelineBatch (TimelineCache.AddToTimeline c maxSize u t)
        maxSize rest t).timelines w = _
    rw [ih _ hwr, addToTimeline_timelines_other c maxSize t hwu]

theorem batch_timelines_mem {w : Int} {uids : List Int} (c : Cache) (maxSize : Nat)
    (t : Tweet) (hnd : uids.Nodup) (hw : w ∈ uids) :
    (TimelineCache.AddToTimelineBatch c maxSize uids t).timelines w =
      ztrim maxSize (zadd (c.timelines w) t.id t.createdAt) := by
  induction uids generalizing c with
  | nil => exact absurd hw (List.not_mem_nil w)
  | cons u rest ih =>
    show (TimelineCache.AddToTimelineBatch (TimelineCache.AddToTimeline c maxSize u t)
        maxSize rest t).timelines w = _
    rcases List.mem_cons.mp hw with hwu | hwr
    · subst hwu
      have hnr : w ∉ rest := (List.nodup_cons.mp hnd).1
      rw [batch_timelines_not_mem _ maxSize t hnr, addToTimeline_timelines_self]
    · have hwu : w ≠ u := by
        intro h
        exact (List.nodup_cons.mp hnd).1 (h ▸ hwr)
      rw [ih _ (List.nodup_cons.mp hnd).2 hwr,
        addToTimeline_timelines_other c maxSize t hwu]

theorem batch_celebTweets (uids : List Int) (c : Cache) (maxSize : Nat) (t : Tweet) :
    (TimelineCache.AddToTimelineBatch c maxSize uids t).celebTweets = c.celebTweets := by
  induction uids generalizing c with
  | nil => rfl
  | cons u rest ih =>
    show (TimelineCache.AddToTimelineBatch (TimelineCache.AddToTimeline c maxSize u t)
        maxSize rest t).celebTweets = _
    rw [ih]
    rfl

/-! ### Follower-list lemmas -/

theorem getFollowers_nodup {s : RelStore} (h : s.follows.Nodup) (uid : Int) :
    (FollowRepository.GetFollowers s uid).Nodup := by
  unfold FollowRepository.GetFollowers
  refine List.Nodup.map_on ?_ (List.Nodup.filter _ h)
  intro x hx y hy hxy
  have hx2 : x.2 = uid := by simpa using (List.mem_filter.mp hx).2
  have hy2 : y.2 = uid := by simpa using (List.mem_filter.mp hy).2
  exact Prod.ext hxy (hx2.trans hy2.symm)

theorem mem_getFollowers_ne {s : RelStore} {w uid : Int}
    (hself : ∀ e ∈ s.follows, e.1 ≠ e.2)
    (hw : w ∈ FollowRepository.GetFollowers s uid) : w ≠ uid := by
  unfold FollowRepository.GetFollowers at hw
  rcases List.mem_map.mp hw with ⟨e, he, he1⟩
  have he2 : e.2 = uid := by simpa using (List.mem_filter.mp he).2
  have := hself e (List.mem_of_mem_filter he)
  rw [he1, he2] at this
  exact this

/-- C3: during a hybrid `PostTweet` (fault-free cache, author resolved) the
author is classified as a celebrity exactly when their `follower_count`
meets the threshold at the moment of the call; in the celebrity branch no
follower timeline changes, `fan_out_count = 0` and the post lands in the
author's celebrity index; in the non-celebrity branch every follower
timeline (and no one else's) receives the post, the celebrity index is
untouched, and `fan_out_count` is the number of followers. -/
theorem hybrid_postTweet_classifier (threshold : Int) (maxSize : Nat) (s : Sys) (uid : Int)
    (content : String) (now : Int) (author : User)
    (hWf : WfDb s.db)
    (hauthor : UserRepository.GetByID s.db uid = some author) :
    (author.IsCelebrity threshold = true ↔ threshold ≤ author.followerCount) ∧
    (HybridStrategy.PostTweet threshold maxSize Fx.ok s uid content now).err = none ∧
    (threshold ≤ author.followerCount →
      (HybridStrategy.PostTweet threshold maxSize Fx.ok s uid content now).metrics.fanOutCount = 0 ∧
      (∀ w, w ≠ uid →
        (HybridStrategy.PostTweet threshold maxSize Fx.ok s uid content now).sys.cache.timelines w =
          s.cache.timelines w) ∧
      (HybridStrategy.PostTweet threshold maxSize Fx.ok s uid content now).sys.cache.celebTweets uid =
        ztrim 100 (zadd (s.cache.celebTweets uid) s.db.nextTweetId now)) ∧
    (¬ threshold ≤ author.followerCount →
      (HybridStrategy.PostTweet threshold maxSize Fx.ok s uid content now).metrics.fanOutCount =
        (FollowRepository.GetFollowers s.db uid).length ∧
      (∀ w, w ∈ FollowRepository.GetFollowers s.db uid →
        (HybridStrategy.PostTweet threshold maxSize Fx.ok s uid content now).sys.cache.timelines w =
          ztrim maxSize (zadd (s.cache.timelines w) s.db.nextTweetId now)) ∧
      (∀ w, w ∉ FollowRepository.GetFollowers s.db uid → w ≠ uid →
        (HybridStrategy.PostTweet threshold maxSize Fx.ok s uid content now).sys.cache.timelines w =
          s.cache.timelines w) ∧
      (∀ v, (HybridStrategy.PostTweet threshold maxSize Fx.ok s uid content now).sys.cache.celebTweets v =
        s.cache.celebTweets v)) := by
  have hfind : s.db.users.find? (fun u => decide (u.id = uid)) = some author := hauthor
  have hp := List.find?_some hfind
  have hu : s.db.users.any (fun u => decide (u.id = uid)) = true :=
    List.any_eq_true.mpr ⟨author, List.mem_of_find?_eq_some hfind, hp⟩
  have hcreate : dbCreateTweet Fx.ok s.db uid content now =
      some ({ id := s.db.nextTweetId, userId := uid, content := content, createdAt := now },
        { s.db with
          tweets := s.db.tweets ++
            [{ id := s.db.nextTweetId, userId := uid, content := content, createdAt := now }]
          nextTweetId := s.db.nextTweetId + 1 }) := by
    unfold dbCreateTweet TweetRepository.Create Fx.ok
    simp [hu]
  refine ⟨by simp [User.IsCelebrity], ?_⟩
  unfold HybridStrategy.PostTweet
  rw [hcreate]
  have hauthor2 : UserRepository.GetByID
      { users := s.db.users,
        tweets := s.db.tweets ++
          [{ id := s.db.nextTweetId, userId := uid, content := content, createdAt := now }],
        follows := s.db.follows,
        nextTweetId := s.db.nextTweetId + 1 } uid = some author := hauthor
  simp only [show Fx.ok.getUserFails = false from rfl, Bool.false_eq_true, if_false, hauthor2]
  by_cases hcel : threshold ≤ author.followerCount
  · have hcelb : author.IsCelebrity threshold = true := by
      simp [User.IsCelebrity, hcel]
    simp only [hcelb, if_true, show Fx.ok.cacheTweetFails = false from rfl,
      show Fx.ok.addCelebrityFails = false from rfl,
      show Fx.ok.addToTimelineFails = false from rfl, Bool.false_eq_true, if_false]
    refine ⟨trivial, fun _ => ⟨trivial, fun w hw => ?_, ?_⟩, fun hn => absurd hcel hn⟩
    · rw [addToTimeline_timelines_other _ maxSize _ hw]
      rfl
    · rw [show ∀ c : Cache, (TimelineCache.AddToTimeline c maxSize uid _).celebTweets =
          c.celebTweets from fun c => rfl]
      unfold TimelineCache.AddCelebrityTweet TimelineCache.CacheTweet upd
      simp
  · have hcelb : author.IsCelebrity threshold = false := by
      simp [User.IsCelebrity, hcel]
    simp only [hcelb, Bool.false_eq_true, if_false,
      show Fx.ok.cacheTweetFails = false from rfl,
      show Fx.ok.getFollowersFails = false from rfl,
      show Fx.ok.addBatchFails = false from rfl,
      show Fx.ok.addToTimelineFails = false from rfl]
    have hfoll : FollowRepository.GetFollowers
        { s.db with
          tweets := s.db.tweets ++
            [{ id := s.db.nextTweetId, userId := uid, content := content, createdAt := now }]
          nextTweetId := s.db.nextTweetId + 1 } uid = FollowRepository.GetFollowers s.db uid := rfl
    rw [hfoll]
    refine ⟨trivial, fun hc => absurd hc hcel, fun _ => ⟨rfl, fun w hw => ?_, fun w hw hwuid => ?_, fun v => ?_⟩⟩
    · have hwuid : w ≠ uid := mem_getFollowers_ne hWf.2.2.2 hw
      have hpos : 0 < (FollowRepository.GetFollowers s.db uid).length :=
        List.length_pos.mpr (List.ne_nil_of_mem hw)
      rw [addToTimeline_timelines_other _ maxSize _ hwuid]
      simp only [hpos, if_pos]
      rw [batch_timelines_mem _ maxSize _ (getFollowers_nodup hWf.2.2.1 uid) hw]
      rfl
    · rw [addToTimeline_timelines_other _ maxSize _ hwuid]
      by_cases hpos : 0 < (FollowRepository.GetFollowers s.db uid).length
      · simp only [hpos, if_pos]
        rw [batch_timelines_not_mem _ maxSize _ hw]
        rfl
      · simp only [hpos, if_neg, if_false]
        rfl
    · rw [addToTimeline_celebTweets]
      by_cases hpos : 0 < (FollowRepository.GetFollowers s.db uid).length
      · simp only [hpos, if_pos]
        rw [batch_celebTweets]
        rfl
      · simp only [hpos, if_neg, if_false]
        rfl

/-- Witness for C3 at concrete celebrity and non-celebrity inputs: user 1
(follower_count 2, threshold 2) is a celebrity; the same call with
threshold 3 fans out instead. -/
theorem hybrid_postTweet_classifier_witness :
    ((exu1.IsCelebrity 2 = true ↔ (2 : Int) ≤ exu1.followerCount) ∧
      (HybridStrategy.PostTweet 2 800 Fx.ok exSys 1 "c" 10).err = none ∧
      (HybridStrategy.PostTweet 2 800 Fx.ok exSys 1 "c" 10).metrics.fanOutCount = 0) ∧
    ((HybridStrategy.PostTweet 3 800 Fx.ok exSys 1 "c" 10).metrics.fanOutCount =
      (FollowRepository.GetFollowers exDb 1).length) := by
  have h1 := hybrid_postTweet_classifier 2 800 exSys 1 "c" 10 exu1 wfSys_exSys.1 (by decide)
  have h2 := hybrid_postTweet_classifier 3 800 exSys 1 "c" 10 exu1 wfSys_exSys.1 (by decide)
  exact ⟨⟨h1.1, h1.2.1, (h1.2.2.1 (by decide)).1⟩, (h2.2.2.2 (by decide)).1⟩

/-! ### Sortedness lemmas -/

theorem sorted_sortTweetsByTime (l : List Tweet) : SortedByTimeDesc (sortTweetsByTime l) :=
  List.sorted_insertionSort byTimeDesc l

theorem sortedByTimeDesc_sublist {l1 l2 : List Tweet} (hs : l1.Sublist l2)
    (h : SortedByTimeDesc l2) : SortedByTimeDesc l1 :=
  List.Pairwise.sublist hs h

theorem applyOffset_sublist (l : List Tweet) (offset : Int) : (applyOffset l offset).Sublist l := by
  unfold applyOffset
  split
  · split
    · exact List.nil_sublist l
    · exact List.drop_sublist _ l
  · exact List.Sublist.refl l

theorem applyLimit_sublist (l : List Tweet) (limit : Int) : (applyLimit l limit).Sublist l := by
  unfold applyLimit
  split
  · exact List.take_sublist _ l
  · exact List.Sublist.refl l

theorem sorted_applyBoth {l : List Tweet} (h : SortedByTimeDesc l) (limit offset : Int) :
    SortedByTimeDesc (applyLimit (applyOffset l offset) limit) :=
  sortedByTimeDesc_sublist
    ((applyLimit_sublist _ limit).trans (applyOffset_sublist l offset)) h

/-- C5 counterexample: a pull `GetTimeline` whose two posts carry the same
`created_at` returns them adjacent with equal timestamps in ascending id
order — the output is not strictly descending by `created_at`, and equal
timestamps are not broken by id (the sort comparator looks only at
`created_at`). -/
theorem getTimeline_strict_order_counterexample :
    (FanOutReadStrategy.GetTimeline Fx.ok exSys 1 50 0).tweets = [ext1, ext2] ∧
    ext1.createdAt = ext2.createdAt ∧ ext1.id < ext2.id ∧
    ¬ List.Pairwise strictByTimeThenId (FanOutReadStrategy.GetTimeline Fx.ok exSys 1 50 0).tweets := by
  refine ⟨by decide, by decide, by decide, ?_⟩
  rw [show (FanOutReadStrategy.GetTimeline Fx.ok exSys 1 50 0).tweets = [ext1, ext2] from by decide]
  decide

theorem push_getTimeline_shape (fx : Fx) (s : Sys) (uid limit offset : Int) :
    (FanOutWriteStrategy.GetTimeline fx s uid limit offset).tweets = [] ∨
    (∃ l, (FanOutWriteStrategy.GetTimeline fx s uid limit offset).tweets = sortTweetsByTime l) ∨
    (FanOutWriteStrategy.GetTimeline fx s uid limit offset).err ≠ none := by
  unfold FanOutWriteStrategy.GetTimeline
  cases hf1 : fx.cacheGetTimelineFails with
  | true => simp [hf1]
  | false =>
    simp only [hf1, Bool.false_eq_true, if_false]
    by_cases hlen : (TimelineCache.GetTimeline s.cache uid limit offset).length = 0
    · simp [hlen]
    · simp only [hlen, if_false]
      have hpos : 0 < (TimelineCache.GetTimeline s.cache uid limit offset).length :=
        Nat.pos_of_ne_zero hlen
      cases hf2 : fx.getCachedTweetsFails with
      | true =>
        cases hf3 : fx.getByIdsFails with
        | true => simp [hf2, hf3, hpos]
        | false =>
          simp only [hf2, hf3, if_true, Bool.false_eq_true, if_false, hpos]
          exact Or.inr (Or.inl ⟨_, rfl⟩)
      | false =>
        simp only [hf2, Bool.false_eq_true, if_false]
        by_cases hm2 : 0 < (TimelineCache.GetCachedTweets s.cache
            (TimelineCache.GetTimeline s.cache uid limit offset)).2.length
        · cases hf3 : fx.getByIdsFails with
          | true => simp [hf3, hm2]
          | false =>
            simp only [hf3, Bool.false_eq_true, if_false, hm2, if_true]
            exact Or.inr (Or.inl ⟨_, rfl⟩)
        · simp only [hm2, if_false]
          exact Or.inr (Or.inl ⟨_, rfl⟩)

theorem pull_getTimeline_shape (fx : Fx) (s : Sys) (uid limit offset : Int) :
    (FanOutReadStrategy.GetTimeline fx s uid limit offset).tweets = [] ∨
    (∃ l, (FanOutReadStrategy.GetTimeline fx s uid limit offset).tweets =
      applyLimit (applyOffset (sortTweetsByTime l) offset) limit) := by
  unfold FanOutReadStrategy.GetTimeline
  cases hf1 : fx.getFollowingFails with
  | true => simp [hf1]
  | false =>
    simp only [hf1, Bool.false_eq_true, if_false]
    by_cases hlen : (FollowRepository.GetFollowing s.db uid ++ [uid]).length = 0
    · simp [hlen]
    · simp only [hlen, if_false]
      cases hf2 : fx.getRecentFails with
      | false =>
        simp only [hf2, Bool.false_eq_true, if_false]
        exact Or.inr ⟨_, rfl⟩
      | true =>
        cases hf3 : fx.getByUserIdsFails with
        | true => simp [hf2, hf3]
        | false =>
          simp only [hf2, hf3, if_true, Bool.false_eq_true, if_false]
          exact Or.inr ⟨_, rfl⟩

/-- C5 as amended: in every strategy the list a successful `GetTimeline`
returns is sorted by `created_at` in non-increasing (not necessarily
strict) order; posts with equal `created_at` may appear in either order —
no id tie-break is applied. -/
theorem getTimeline_sorted_by_time (threshold : Int) (fx : Fx) (s : Sys)
    (uid limit offset : Int) :
    ((FanOutWriteStrategy.GetTimeline fx s uid limit offset).err = none →
      SortedByTimeDesc (FanOutWriteStrategy.GetTimeline fx s uid limit offset).tweets) ∧
    ((FanOutReadStrategy.GetTimeline fx s uid limit offset).err = none →
      SortedByTimeDesc (FanOutReadStrategy.GetTimeline fx s uid limit offset).tweets) ∧
    ((HybridStrategy.GetTimeline threshold fx s uid limit offset).err = none →
      SortedByTimeDesc (HybridStrategy.GetTimeline threshold fx s uid limit offset).tweets) := by
  refine ⟨fun h => ?_, fun _ => ?_, fun _ => ?_⟩
  · rcases push_getTimeline_shape fx s uid limit offset with he | ⟨l, hl⟩ | herr
    · rw [he]
      exact List.Pairwise.nil
    · rw [hl]
      exact sorted_sortTweetsByTime l
    · exact absurd h herr
  · rcases pull_getTimeline_shape fx s uid limit offset with he | ⟨l, hl⟩
    · rw [he]
      exact List.Pairwise.nil
    · rw [hl]
      exact sorted_applyBoth (sorted_sortTweetsByTime l) limit offset
  · exact sorted_applyBoth (sorted_sortTweetsByTime _) limit offset

/-- Witness for the amended C5 at a concrete successful call of each
strategy. -/
theorem getTimeline_sorted_by_time_witness :
    SortedByTimeDesc (FanOutWriteStrategy.GetTimeline Fx.ok exSys 1 50 0).tweets ∧
    SortedByTimeDesc (FanOutReadStrategy.GetTimeline Fx.ok exSys 1 50 0).tweets ∧
    SortedByTimeDesc (HybridStrategy.GetTimeline 2 Fx.ok exSys 1 50 0).tweets :=
  ⟨(getTimeline_sorted_by_time 2 Fx.ok exSys 1 50 0).1 (by decide),
   (getTimeline_sorted_by_time 2 Fx.ok exSys 1 50 0).2.1 (by decide),
   (getTimeline_sorted_by_time 2 Fx.ok exSys 1 50 0).2.2 (by decide)⟩

theorem getFollowing_nodup {s : RelStore} (h : s.follows.Nodup) (uid : Int) :
    (FollowRepository.GetFollowing s uid).Nodup := by
  unfold FollowRepository.GetFollowing
  refine List.Nodup.map_on ?_ (List.Nodup.filter _ h)
  intro x hx y hy hxy
  have hx1 : x.1 = uid := by simpa using (List.mem_filter.mp hx).2
  have hy1 : y.1 = uid := by simpa using (List.mem_filter.mp hy).2
  exact Prod.ext (hx1.trans hy1.symm) hxy

theorem self_not_mem_getFollowing {s : RelStore} {uid : Int}
    (hself : ∀ e ∈ s.follows, e.1 ≠ e.2) : uid ∉ FollowRepository.GetFollowing s uid := by
  intro hmem
  unfold FollowRepository.GetFollowing at hmem
  rcases List.mem_map.mp hmem with ⟨e, he, he2⟩
  have he1 : e.1 = uid := by simpa using (List.mem_filter.mp he).2
  exact hself e (List.mem_of_mem_filter he) (he1.trans he2.symm)

/-- C8: the pull `GetTimeline` (fault-free) computes exactly the
specification's read — the author set is the followed users plus the reader
(a duplicate-free set, by the follows primary key and the absence of
self-follows), the result is the time-sorted merged recent posts with the
offset applied and truncated to `limit`, `cache_hit` is always false, and
`fan_out_count` is the size of the merged author set. -/
theorem pull_getTimeline_matches_spec (s : Sys) (uid limit offset : Int)
    (hWf : WfDb s.db) (hl : 0 ≤ limit) (ho : 0 ≤ offset) :
    (FanOutReadStrategy.GetTimeline Fx.ok s uid limit offset).tweets =
      pullTimelineSpecList s.db uid limit offset ∧
    (FanOutReadStrategy.GetTimeline Fx.ok s uid limit offset).err = none ∧
    (FanOutReadStrategy.GetTimeline Fx.ok s uid limit offset).metrics.cacheHit = false ∧
    (FanOutReadStrategy.GetTimeline Fx.ok s uid limit offset).metrics.fanOutCount =
      ((FollowRepository.GetFollowing s.db uid ++ [uid]).dedup).length := by
  have hnd : (FollowRepository.GetFollowing s.db uid ++ [uid]).Nodup := by
    rw [List.nodup_append]
    refine ⟨getFollowing_nodup hWf.2.2.1 uid, List.nodup_singleton uid, ?_⟩
    intro x hx hx2
    have : x = uid := by simpa using hx2
    exact self_not_mem_getFollowing hWf.2.2.2 (this ▸ hx)
  have hded : (FollowRepository.GetFollowing s.db uid ++ [uid]).dedup =
      FollowRepository.GetFollowing s.db uid ++ [uid] := List.dedup_eq_self.mpr hnd
  have hne : ¬ (FollowRepository.GetFollowing s.db uid ++ [uid]).length = 0 := by
    simp
  unfold FanOutReadStrategy.GetTimeline pullTimelineSpecList
  simp only [show Fx.ok.getFollowingFails = false from rfl,
    show Fx.ok.getRecentFails = false from rfl,
    show Fx.ok.cacheBatchPutFails = false from rfl,
    Bool.false_eq_true, if_false, hded, hne, List.isEmpty_iff]
  refine ⟨?_, ?_, ?_, ?_⟩ <;> first | trivial | rfl | simp

/-- Witness for C8 at a concrete input (reader 1 follows 2 and 3). -/
theorem pull_getTimeline_matches_spec_witness :
    (FanOutReadStrategy.GetTimeline Fx.ok exSys 1 50 0).tweets =
      pullTimelineSpecList exDb 1 50 0 ∧
    (FanOutReadStrategy.GetTimeline Fx.ok exSys 1 50 0).err = none ∧
    (FanOutReadStrategy.GetTimeline Fx.ok exSys 1 50 0).metrics.cacheHit = false ∧
    (FanOutReadStrategy.GetTimeline Fx.ok exSys 1 50 0).metrics.fanOutCount =
      ((FollowRepository.GetFollowing exDb 1 ++ [1]).dedup).length :=
  pull_getTimeline_matches_spec exSys 1 50 0 wfSys_exSys.1 (by decide) (by decide)

/-! ### Duplicate-freedom lemmas -/

theorem nodup_ids_of_sublist {l1 l2 : List Tweet} (h : l1.Sublist l2)
    (hn : (l2.map (fun t => t.id)).Nodup) : (l1.map (fun t => t.id)).Nodup :=
  List.Nodup.sublist (List.Sublist.map _ h) hn

theorem nodup_ids_sortTweetsByTime {l : List Tweet}
    (hn : (l.map (fun t => t.id)).Nodup) :
    ((sortTweetsByTime l).map (fun t => t.id)).Nodup :=
  (List.Perm.nodup_iff (List.Perm.map _ (List.perm_insertionSort byTimeDesc l))).mpr hn

theorem mem_sortTweetsByTime {t : Tweet} {l : List Tweet} :
    t ∈ sortTweetsByTime l ↔ t ∈ l :=
  (List.perm_insertionSort byTimeDesc l).mem_iff

theorem dedupSeen_nodup (l : List Tweet) (seen : List Int) :
    ((dedupSeen seen l).map (fun t => t.id)).Nodup ∧
    (∀ t ∈ dedupSeen seen l, t.id ∉ seen) := by
  induction l generalizing seen with
  | nil =>
    constructor
    · simp [dedupSeen]
    · intro t ht
      simp [dedupSeen] at ht
  | cons t rest ih =>
    unfold dedupSeen
    by_cases hmem : t.id ∈ seen
    · simp only [hmem, if_true]
      exact ih seen
    · simp only [hmem, if_false]
      obtain ⟨ihn, ihs⟩ := ih (t.id :: seen)
      constructor
      · simp only [List.map_cons, List.nodup_cons]
        refine ⟨?_, ihn⟩
        intro hc
        rcases List.mem_map.mp hc with ⟨u, hu, huid⟩
        exact ihs u hu (huid ▸ List.mem_cons_self _ _)
      · intro u hu
        rcases List.mem_cons.mp hu with h | h
        · subst h
          exact hmem
        · intro hs
          exact ihs u h (List.mem_cons_of_mem _ hs)

theorem deduplicateTweets_nodup (l : List Tweet) :
    ((deduplicateTweets l).map (fun t => t.id)).Nodup :=
  (dedupSeen_nodup l []).1

theorem getByIDs_nodup {s : RelStore} (h : (s.tweets.map (fun t => t.id)).Nodup)
    (ids : List Int) :
    ((TweetRepository.GetByIDs s ids).map (fun t => t.id)).Nodup :=
  nodup_ids_sortTweetsByTime (nodup_ids_of_sublist (List.filter_sublist _) h)

theorem mem_getByIDs {s : RelStore} {ids : List Int} {t : Tweet}
    (h : t ∈ TweetRepository.GetByIDs s ids) : t.id ∈ ids := by
  unfold TweetRepository.GetByIDs at h
  have := (List.mem_filter.mp (mem_sortTweetsByTime.mp h)).2
  simpa using this

theorem getByUserIDs_nodup {s : RelStore} (h : (s.tweets.map (fun t => t.id)).Nodup)
    (uids : List Int) (limit : Int) :
    ((TweetRepository.GetByUserIDs s uids limit).map (fun t => t.id)).Nodup :=
  nodup_ids_of_sublist (List.take_sublist _ _)
    (nodup_ids_sortTweetsByTime (nodup_ids_of_sublist (List.filter_sublist _) h))

theorem mem_perUser {s : RelStore} {u : Int} {per : Nat} {t : Tweet}
    (h : t ∈ (sortTweetsByTime (s.tweets.filter (fun t => decide (t.userId = u)))).take per) :
    t ∈ s.tweets ∧ t.userId = u := by
  have hm := mem_sortTweetsByTime.mp (List.mem_of_mem_take h)
  refine ⟨List.mem_of_mem_filter hm, ?_⟩
  simpa using (List.mem_filter.mp hm).2

theorem getRecent_nodup {s : RelStore} (htweets : (s.tweets.map (fun t => t.id)).Nodup)
    {uids : List Int} (huids : uids.Nodup) (per total : Int) :
    ((TweetRepository.GetRecentByUserIDs s uids per total).map (fun t => t.id)).Nodup := by
  unfold TweetRepository.GetRecentByUserIDs
  refine nodup_ids_of_sublist (List.take_sublist _ _) (nodup_ids_sortTweetsByTime ?_)
  rw [List.map_flatten, List.map_map]
  rw [List.nodup_flatten]
  constructor
  · intro l hl
    rcases List.mem_map.mp hl with ⟨u, _, hu⟩
    subst hu
    exact nodup_ids_of_sublist (List.take_sublist _ _)
      (nodup_ids_sortTweetsByTime (nodup_ids_of_sublist (List.filter_sublist _) htweets))
  · refine List.Pairwise.map _ ?_ huids
    intro u v huv i hiu hiv
    simp only [Function.comp] at hiu hiv
    rcases List.mem_map.mp hiu with ⟨t1, ht1, hid1⟩
    rcases List.mem_map.mp hiv with ⟨t2, ht2, hid2⟩
    obtain ⟨ht1m, ht1u⟩ := mem_perUser ht1
    obtain ⟨ht2m, ht2u⟩ := mem_perUser ht2
    have : t1 = t2 :=
      List.inj_on_of_nodup_map htweets ht1m ht2m (hid1.trans hid2.symm)
    exact huv (ht1u.symm.trans (this ▸ ht2u))

theorem zrevrange_sublist (z : ZSet) (a b : Int) :
    (zrevrange z a b).Sublist (z.map (fun p => p.1)).reverse := by
  unfold zrevrange
  dsimp only
  repeat' split
  all_goals first
    | exact List.nil_sublist _
    | exact (List.take_sublist _ _).trans (List.drop_sublist _ _)

theorem zrevrange_nodup {z : ZSet} (h : (z.map (fun p => p.1)).Nodup) (a b : Int) :
    (zrevrange z a b).Nodup :=
  List.Nodup.sublist (zrevrange_sublist z a b) (List.nodup_reverse.mpr h)

theorem getCachedTweets_hits_ids {c : Cache}
    (hwf : ∀ pid t, c.tweetCache pid = some t → t.id = pid) (ids : List Int) :
    ((TimelineCache.GetCachedTweets c ids).1.map (fun t => t.id)) =
      ids.filter (fun i => (c.tweetCache i).isSome) := by
  unfold TimelineCache.GetCachedTweets
  induction ids with
  | nil => rfl
  | cons i rest ih =>
    simp only [List.filterMap_cons, List.filter_cons]
    cases hc : c.tweetCache i with
    | none => simpa [hc] using ih
    | some t =>
      have hid : t.id = i := hwf i t hc
      simpa [hc, hid] using ih

theorem getCachedTweets_missing (c : Cache) (ids : List Int) :
    (TimelineCache.GetCachedTweets c ids).2 =
      ids.filter (fun i => (c.tweetCache i).isNone) := rfl

/-- The hybrid read always returns a slice of a sorted deduplicated list. -/
theorem hybrid_getTimeline_tweets_shape (threshold : Int) (fx : Fx) (s : Sys)
    (uid limit offset : Int) :
    ∃ l, (HybridStrategy.GetTimeline threshold fx s uid limit offset).tweets =
      applyLimit (applyOffset (sortTweetsByTime (deduplicateTweets l)) offset) limit :=
  ⟨_, rfl⟩

theorem following_with_self_nodup {s : RelStore} (hfollows : s.follows.Nodup)
    (hself : ∀ e ∈ s.follows, e.1 ≠ e.2) (uid : Int) :
    (FollowRepository.GetFollowing s uid ++ [uid]).Nodup := by
  rw [List.nodup_append]
  refine ⟨getFollowing_nodup hfollows uid, List.nodup_singleton uid, ?_⟩
  intro x hx hx2
  have hxu : x = uid := by simpa using hx2
  exact self_not_mem_getFollowing hself (hxu ▸ hx)

/-- C4: in every strategy and every reachable (well-formed) state, each
`pid` appears at most once in the list `GetTimeline` returns, for all
inputs and fault combinations. -/
theorem getTimeline_dedup (threshold : Int) (fx : Fx) (s : Sys) (uid limit offset : Int)
    (hWf : WfSys s) :
    ((FanOutWriteStrategy.GetTimeline fx s uid limit offset).tweets.map (fun t => t.id)).Nodup ∧
    ((FanOutReadStrategy.GetTimeline fx s uid limit offset).tweets.map (fun t => t.id)).Nodup ∧
    ((HybridStrategy.GetTimeline threshold fx s uid limit offset).tweets.map (fun t => t.id)).Nodup := by
  obtain ⟨⟨htweets, husers, hfollows, hself⟩, hczn, hcid⟩ := hWf
  refine ⟨?_, ?_, ?_⟩
  · unfold FanOutWriteStrategy.GetTimeline
    cases hf1 : fx.cacheGetTimelineFails with
    | true => simp [hf1]
    | false =>
      simp only [hf1, Bool.false_eq_true, if_false]
      by_cases hlen : (TimelineCache.GetTimeline s.cache uid limit offset).length = 0
      · simp [hlen]
      · simp only [hlen, if_false]
        have hidnd : (TimelineCache.GetTimeline s.cache uid limit offset).Nodup :=
          zrevrange_nodup (hczn uid) _ _
        have hpos : 0 < (TimelineCache.GetTimeline s.cache uid limit offset).length :=
          Nat.pos_of_ne_zero hlen
        have hhits : ((TimelineCache.GetCachedTweets s.cache
            (TimelineCache.GetTimeline s.cache uid limit offset)).1.map (fun t => t.id)) =
            (TimelineCache.GetTimeline s.cache uid limit offset).filter
              (fun i => (s.cache.tweetCache i).isSome) :=
          getCachedTweets_hits_ids hcid _
        cases hf2 : fx.getCachedTweetsFails with
        | true =>
          cases hf3 : fx.getByIdsFails with
          | true => simp [hf2, hf3, hpos]
          | false =>
            simp only [hf2, hf3, if_true, Bool.false_eq_true, if_false, hpos]
            have := getByIDs_nodup htweets (TimelineCache.GetTimeline s.cache uid limit offset)
            exact nodup_ids_sortTweetsByTime (by simpa using this)
        | false =>
          simp only [hf2, Bool.false_eq_true, if_false]
          by_cases hm2 : 0 < (TimelineCache.GetCachedTweets s.cache
              (TimelineCache.GetTimeline s.cache uid limit offset)).2.length
          · cases hf3 : fx.getByIdsFails with
            | true =>
              simp only [hf3, if_true, hm2]
              rw [hhits]
              exact List.Nodup.filter _ hidnd
            | false =>
              simp only [hf3, Bool.false_eq_true, if_false, hm2, if_true]
              refine nodup_ids_sortTweetsByTime ?_
              rw [List.map_append]
              refine List.nodup_append.mpr ⟨?_, ?_, ?_⟩
              · rw [hhits]
                exact List.Nodup.filter _ hidnd
              · exact getByIDs_nodup htweets _
              · intro x hx hy
                rw [hhits] at hx
                have hxs : (s.cache.tweetCache x).isSome := (List.mem_filter.mp hx).2
                rcases List.mem_map.mp hy with ⟨t, ht, hid⟩
                have hmis : t.id ∈ (TimelineCache.GetCachedTweets s.cache
                    (TimelineCache.GetTimeline s.cache uid limit offset)).2 := mem_getByIDs ht
                rw [getCachedTweets_missing] at hmis
                have hxn : (s.cache.tweetCache t.id).isNone = true :=
                  (List.mem_filter.mp hmis).2
                rw [hid] at hxn
                cases hcx : s.cache.tweetCache x with
                | none => rw [hcx] at hxs; simp at hxs
                | some u => rw [hcx] at hxn; simp at hxn
          · simp only [hm2, if_false]
            refine nodup_ids_sortTweetsByTime ?_
            rw [hhits]
            exact List.Nodup.filter _ hidnd
  · unfold FanOutReadStrategy.GetTimeline
    cases hf1 : fx.getFollowingFails with
    | true => simp [hf1]
    | false =>
      simp only [hf1, Bool.false_eq_true, if_false]
      by_cases hlen : (FollowRepository.GetFollowing s.db uid ++ [uid]).length = 0
      · simp [hlen]
      · simp only [hlen, if_false]
        have hnd : (FollowRepository.GetFollowing s.db uid ++ [uid]).Nodup :=
          following_with_self_nodup hfollows hself uid
        cases hf2 : fx.getRecentFails with
        | false =>
          simp only [hf2, Bool.false_eq_true, if_false]
          exact nodup_ids_of_sublist ((applyLimit_sublist _ _).trans (applyOffset_sublist _ _))
            (nodup_ids_sortTweetsByTime (getRecent_nodup htweets hnd 10 (limit + offset)))
        | true =>
          cases hf3 : fx.getByUserIdsFails with
          | true => simp [hf2, hf3]
          | false =>
            simp only [hf2, hf3, if_true, Bool.false_eq_true, if_false]
            exact nodup_ids_of_sublist ((applyLimit_sublist _ _).trans (applyOffset_sublist _ _))
              (nodup_ids_sortTweetsByTime (getByUserIDs_nodup htweets _ _))
  · rcases hybrid_getTimeline_tweets_shape threshold fx s uid limit offset with ⟨l, hl⟩
    rw [hl]
    exact nodup_ids_of_sublist ((applyLimit_sublist _ _).trans (applyOffset_sublist _ _))
      (nodup_ids_sortTweetsByTime (deduplicateTweets_nodup l))

/-- Witness for C4 at a concrete well-formed state. -/
theorem getTimeline_dedup_witness :
    ((FanOutWriteStrategy.GetTimeline Fx.ok exSys 1 50 0).tweets.map (fun t => t.id)).Nodup ∧
    ((FanOutReadStrategy.GetTimeline Fx.ok exSys 1 50 0).tweets.map (fun t => t.id)).Nodup ∧
    ((HybridStrategy.GetTimeline 2 Fx.ok exSys 1 50 0).tweets.map (fun t => t.id)).Nodup :=
  getTimeline_dedup 2 Fx.ok exSys 1 50 0 wfSys_exSys

end FanOut
